import Mathlib

/-!
# mbar: hint decoding, device probes and the property-change filter

A shallow embedding of the decision logic of `mbar.c` (`hints_update`,
`wireless_update`, `battery_update`, `on_property_changed`) together with the
properties established about it.

Conventions of the embedding.

* C `int` / `long` values are mathematical integers; bit patterns are natural
  numbers reduced modulo `2 ^ 32` / `2 ^ 64` (LP64 data model).
* C strings are lists of bytes (`Char`), the byte `NUL` terminating them.
* Automatic variables that the source reads without having written them take
  their value from an explicit argument holding the prior stack contents.
* A step whose behaviour C leaves undefined (reading past an object, integer
  division by zero, an out-of-range float-to-int conversion) yields `none`.
  The one store past an object, `sprintf` into `gchar str[2]`, is recorded
  instead: `Frame.stored` is the number of bytes stored, `str_size` the size of
  the buffer.
* `float` is IEEE 754 binary32 with round to nearest, ties to even, and
  expressions of type `float` are evaluated in that format.
-/

set_option maxRecDepth 100000

namespace Mbar

/-! ## Machine integers -/

/-- Value of a 32-bit word read through an `int` lvalue (two's complement). -/
def toInt32 (w : Nat) : Int :=
  if w % 2 ^ 32 < 2 ^ 31 then ((w % 2 ^ 32 : Nat) : Int)
  else ((w % 2 ^ 32 : Nat) : Int) - 2 ^ 32

/-- Bit pattern of a `long` (64 bits) holding the value `v`. -/
def longBits (v : Int) : Nat := (v % 2 ^ 64).toNat

/-- Value of the `long` whose bit pattern is `w`. -/
def toInt64 (w : Nat) : Int :=
  if w % 2 ^ 64 < 2 ^ 63 then ((w % 2 ^ 64 : Nat) : Int)
  else ((w % 2 ^ 64 : Nat) : Int) - 2 ^ 64

/-- The C expression `x & y` on `long` operands. -/
def land_long (x y : Int) : Int := toInt64 (longBits x &&& longBits y)

/-- The C expression `x << i` on a `long` operand. -/
def shl_long (x : Int) (i : Nat) : Int := toInt64 (longBits x <<< i)

/-! ## C strings -/

/-- The byte that terminates a C string. -/
def NUL : Char := Char.ofNat 0

/-- The C string starting at the head of `mem`: the bytes before the first
`NUL`; `none` when `mem` holds no `NUL` (the read leaves the object). -/
def c_str : List Char → Option (List Char)
  | [] => none
  | c :: cs => if c = NUL then some [] else (c_str cs).map (fun t => c :: t)

/-- C `strlen`. -/
def strlen (mem : List Char) : Option Nat := (c_str mem).map List.length

/-- C `strcpy(dst, src)` for a string literal `src`: the text and its `NUL`
overwrite the head of `dst`. -/
def strcpy (dst src : List Char) : List Char :=
  src ++ [NUL] ++ dst.drop (src.length + 1)

/-- The `n` bytes that `strncpy` stores: the bytes of `src` up to its `NUL`,
then `NUL` padding; when `src` has `n` or more bytes before its `NUL`, the
first `n` of them and no `NUL`. -/
def strncpy_bytes : List Char → Nat → Option (List Char)
  | _, 0 => some []
  | [], _ + 1 => none
  | c :: cs, n + 1 =>
    if c = NUL then some (List.replicate (n + 1) NUL)
    else (strncpy_bytes cs n).map (fun t => c :: t)

/-- C `strncpy(dst, src, n)`. -/
def strncpy (dst src : List Char) (n : Nat) : Option (List Char) :=
  (strncpy_bytes src n).map (fun b => b ++ dst.drop n)

/-- The bytes `sprintf(str, "%d", v)` stores for `v ≥ 0`: the decimal digits and
the terminating `NUL`. -/
def sprintf_d (v : Nat) : List Char := Nat.toDigits 10 v ++ [NUL]

/-! ## `hints_update` -/

/-- The automatic variables of `hints_update` as found on entry. -/
structure Locals where
  hints_focused_monitor_tags : List Int
  hints_focused_monitor_tagset : Int
  hints_focused_client_class : List Char
  hints_focused_client_tagset : Int

/-- The four replies of the first request wave (`none`: null reply). -/
structure Replies where
  monitor_tags : Option (List Int)
  monitor_tagset : Option Nat
  focused : Option Nat
  focused_tagset : Option Nat

/-- A frame packed into `tag_box`: the label text, the style classes added to
the frame, and the number of bytes `sprintf` stored into `str` for it. -/
structure Frame where
  stored : Nat
  label : List Char
  classes : List String
deriving DecidableEq, Repr

/-- What `hints_update` leaves on screen. -/
structure Display where
  tag_box : List Frame
  focused_label : List Char
deriving DecidableEq, Repr

/-- Size of the buffer `gchar str[2]`. -/
def str_size : Nat := 2

/-- The source's `memcpy(hints_focused_monitor_tags, value, 32 * sizeof(int))`. -/
def memcpy_tags (value : List Int) : Option (List Int) :=
  if 32 ≤ value.length then some (value.take 32) else none

/-- Lines 223-243 and the read at line 275: the focused client's class. -/
def focused_class (st : Locals) (wm_class : Nat → Option (List Char))
    (focused : Option Nat) : Option (List Char) :=
  let buf := strcpy st.hints_focused_client_class "None".toList
  match focused with
  | none => c_str buf
  | some window =>
    match wm_class window with
    | none => c_str buf
    | some cls =>
      (strlen cls).bind fun n =>
      (strncpy buf (cls.drop (n + 1)) 256).bind c_str

/-- Body of the loop at lines 256-270 for index `i`. -/
def tag_frame (tagset ctagset : Int) (i : Nat) : Frame :=
  let str := sprintf_d (i + 1)
  { stored := str.length
    label := (c_str str).getD []
    classes :=
      ["flat", "tag"]
      ++ (if land_long tagset (shl_long 1 i) ≠ 0 then ["match-monitor-tagset"] else [])
      ++ (if land_long ctagset (shl_long 1 i) ≠ 0 then ["match-client-tagset"] else []) }

/-- The loop `for (int i = 0; i < 32; ++i)` of lines 253-272, `n` iterations
left, `box` the children packed so far. -/
def tag_loop (tags : List Int) (tagset ctagset : Int) : Nat → Nat → List Frame → List Frame
  | 0, _, box => box
  | n + 1, i, box =>
    if tags.getD i 0 ≠ 0 ∨ land_long tagset (shl_long 1 i) ≠ 0 then
      tag_loop tags tagset ctagset n (i + 1) (box ++ [tag_frame tagset ctagset i])
    else
      tag_loop tags tagset ctagset n (i + 1) box

/-- The function `hints_update`. -/
def hints_update (st : Locals) (wm_class : Nat → Option (List Char)) (r : Replies) :
    Option Display :=
  (match r.monitor_tags with
    | some value => memcpy_tags value
    | none => some st.hints_focused_monitor_tags).bind fun tags =>
  let tagset := match r.monitor_tagset with
    | some w => toInt32 w
    | none => st.hints_focused_monitor_tagset
  (focused_class st wm_class r.focused).bind fun cls =>
  let ctagset := match r.focused_tagset with
    | some w => toInt32 w
    | none => st.hints_focused_client_tagset
  some { tag_box := tag_loop tags tagset ctagset 32 0 []
         focused_label := cls }

/-- The label and the style classes of the frame rendered for tag index `i`
when bit `i` of the monitor tagset is `mon` and bit `i` of the client tagset is
`cli`. -/
def rendered (i : Nat) (mon cli : Bool) : List Char × List String :=
  (Nat.toDigits 10 (i + 1),
    ["flat", "tag"] ++ (if mon then ["match-monitor-tagset"] else [])
      ++ (if cli then ["match-client-tagset"] else []))

/-! ## Labels and their style contexts -/

/-- A `GtkLabel`: its text and the classes of its style context. -/
structure Label where
  text : List Char
  classes : List String
deriving DecidableEq, Repr

/-- The call `gtk_style_context_remove_class`. -/
def remove_class (l : Label) (c : String) : Label :=
  { l with classes := l.classes.filter (fun x => decide (x ≠ c)) }

/-- The call `gtk_style_context_add_class`. -/
def add_class (l : Label) (c : String) : Label :=
  if c ∈ l.classes then l else { l with classes := l.classes ++ [c] }

/-- The call `gtk_label_set_label`. -/
def set_label (l : Label) (t : List Char) : Label := { l with text := t }

/-- Text produced by the conversion `%d`. -/
def fmt_d (v : Int) : List Char :=
  if v < 0 then '-' :: Nat.toDigits 10 v.natAbs else Nat.toDigits 10 v.natAbs

/-- Text produced by the conversion `%.2d`: at least two digits. -/
def fmt_2d (v : Int) : List Char :=
  let ds := Nat.toDigits 10 v.natAbs
  let padded := List.replicate (2 - ds.length) '0' ++ ds
  if v < 0 then '-' :: padded else padded

/-! ## `wireless_update` -/

inductive WState where
  | WST_UNK
  | WST_OFF
  | WST_DIS
  | WST_CON
deriving DecidableEq, Repr

/-- The fields of `winfo.b` the source reads after a successful
`iw_get_basic_config`; `essid` is the NUL-terminated name as text. -/
structure BasicConfig where
  has_essid : Int
  essid_on : Int
  essid : List Char

/-- The fields of `winfo.stats.qual` (each a `__u8`). -/
structure Stats where
  qual : Fin 256
  level : Fin 256
  updated : Fin 256

/-- The flag `IW_QUAL_DBM` of `linux/wireless.h`. -/
def IW_QUAL_DBM : Nat := 0x08

/-- The flag `IW_QUAL_QUAL_INVALID` of `linux/wireless.h`. -/
def IW_QUAL_QUAL_INVALID : Nat := 0x10

def WIRELESS_INTERFACE : List Char := "wlp4s0".toList

/-- Lines 300-307: the value of `wireless_state`; `basic = none` stands for
`iw_get_basic_config` returning a negative value. -/
def wireless_state (basic : Option BasicConfig) : WState :=
  match basic with
  | none => WState.WST_UNK
  | some b =>
    if b.has_essid ≠ 0 ∧ b.essid_on ≠ 0 then WState.WST_CON else WState.WST_DIS

/-- Lines 292 and 309-327: the value of `wireless_quality`; `range` is
`winfo.range.max_qual.qual` after a successful `iw_get_range_info`, `stats` the
result of a successful `iw_get_stats`. The division by a zero `max_qual` has no
value. -/
def wireless_quality (basic : Option BasicConfig) (range : Option (Fin 256))
    (stats : Option Stats) : Option Int :=
  match basic with
  | none => some 0
  | some _ =>
    match range, stats with
    | some max_qual, some s =>
      if s.level.val ≠ 0 ∨ s.updated.val &&& IW_QUAL_DBM ≠ 0 then
        if ¬ (s.updated.val &&& IW_QUAL_QUAL_INVALID ≠ 0) then
          if max_qual.val = 0 then none
          else some (Int.tdiv ((s.qual.val : Int) * 100) (max_qual.val : Int))
        else some 0
      else some 0
    | _, _ => some 0

/-- Line 304: the name copied into `wireless_ssid` (only read when connected). -/
def wireless_ssid (basic : Option BasicConfig) : List Char :=
  match basic with
  | none => []
  | some b => b.essid

/-- Lines 332-353: the label for a state, name and quality. -/
def wireless_render (state : WState) (ssid : List Char) (quality : Int) (lbl : Label) :
    Label :=
  let context := remove_class (remove_class lbl "warning") "critical"
  match state with
  | WState.WST_OFF =>
    set_label (add_class context "critical") (WIRELESS_INTERFACE ++ ": Off".toList)
  | WState.WST_DIS =>
    set_label (add_class context "warning") (WIRELESS_INTERFACE ++ ": Disconnected".toList)
  | WState.WST_UNK =>
    set_label (add_class context "critical") (WIRELESS_INTERFACE ++ ": Error".toList)
  | WState.WST_CON =>
    set_label context
      (WIRELESS_INTERFACE ++ ": ".toList ++ ssid ++ ", ".toList ++ fmt_d quality ++ "%".toList)

/-- The function `wireless_update`: the new state of `wireless_label`. -/
def wireless_update (basic : Option BasicConfig) (range : Option (Fin 256))
    (stats : Option Stats) (lbl : Label) : Option Label :=
  (wireless_quality basic range stats).map fun quality =>
    wireless_render (wireless_state basic) (wireless_ssid basic) quality lbl

/-! ## `battery_update` -/

inductive BState where
  | BST_UNK
  | BST_FUL
  | BST_CHA
  | BST_DIS
deriving DecidableEq, Repr

def BATTERY_DEVICE : List Char := "BAT0".toList
def BATTERY_WARNING_CAPACITY_THRESHOLD : Int := 30
def BATTERY_CRITICAL_CAPACITY_THRESHOLD : Int := 10

/-- The udev properties of the battery device (`none`: property absent). -/
structure Device where
  POWER_SUPPLY_STATUS : Option (List Char)
  POWER_SUPPLY_CAPACITY : Option (List Char)
  POWER_SUPPLY_ENERGY_NOW : Option (List Char)
  POWER_SUPPLY_ENERGY_FULL : Option (List Char)
  POWER_SUPPLY_POWER_NOW : Option (List Char)

/-- C `isspace` in the "C" locale. -/
def isspace (c : Char) : Bool := c.toNat = 32 || (9 ≤ c.toNat && c.toNat ≤ 13)

/-- Value of the leading decimal digits of a text, continuing from `acc`. -/
def digits_value : List Char → Nat → Nat
  | [], acc => acc
  | c :: cs, acc =>
    if 48 ≤ c.toNat ∧ c.toNat ≤ 57 then digits_value cs (acc * 10 + (c.toNat - 48)) else acc

/-- C `atol` (glibc: `strtol(s, NULL, 10)`): leading white space, an optional
sign, the leading digits; out-of-range values clamp to the `long` range. -/
def atol (s : List Char) : Int :=
  let s1 := s.dropWhile isspace
  match s1 with
  | [] => 0
  | c :: t =>
    if c = '-' then max (-(digits_value t 0 : Int)) (-(2 ^ 63))
    else if c = '+' then min (digits_value t 0 : Int) (2 ^ 63 - 1)
    else min (digits_value s1 0 : Int) (2 ^ 63 - 1)

/-- C `atoi` (glibc: `(int) strtol(s, NULL, 10)`). -/
def atoi (s : List Char) : Int := toInt32 (longBits (atol s))

/-- Lines 378-388: the value of `state`. -/
def battery_state (attr : Option (List Char)) : BState :=
  match attr with
  | none => BState.BST_UNK
  | some a =>
    if a = "Full".toList then BState.BST_FUL
    else if a = "Charging".toList then BState.BST_CHA
    else if a = "Discharging".toList then BState.BST_DIS
    else BState.BST_UNK

/-- Lines 360, 369, 390-392: the value of `capacity`. -/
def battery_capacity (attr : Option (List Char)) : Int :=
  match attr with
  | none => 0
  | some a => atoi a

/-- Lines 363-364, 394-400: the value of `enow` / `efull`. -/
def battery_energy (attr : Option (List Char)) : Int :=
  match attr with
  | none => 0
  | some a => atol a

/-- Lines 365, 402-404: the value of `pnow`. -/
def battery_pnow (attr : Option (List Char)) : Int :=
  match attr with
  | none => 1
  | some a => atol a

/-- Floor of the binary logarithm, by halving (`fuel` bounds the halvings). -/
def log2_fuel : Nat → Nat → Nat
  | 0, _ => 0
  | fuel + 1, n => if n < 2 then 0 else log2_fuel fuel (n / 2) + 1

/-- Floor of the binary logarithm of `n` (`0` for `n = 0`). -/
def ilog2 (n : Nat) : Nat := log2_fuel n n

/-- The fraction `n / d` rounded to the nearest integer, ties to even. -/
def rne (n d : Nat) : Nat :=
  if 2 * (n % d) < d then n / d
  else if d < 2 * (n % d) then n / d + 1
  else if (n / d) % 2 = 0 then n / d else n / d + 1

/-- IEEE 754 binary32 rounding (24 significant bits, round to nearest, ties to
even) of the non-negative rational `n / d`, returned as a fraction whose
denominator is a power of two. With `N = n * 2 ^ up` and `D = d * 2 ^ down` the
quotient `N / D` lies in `[2 ^ 23, 2 ^ 25)`; below `2 ^ 24` it is the
significand to round, otherwise half of it is. The exponent is not bounded: the
operands the source supplies come from `long` values, for which binary32
neither overflows nor is subnormal. -/
def round_float (n d : Nat) : Nat × Nat :=
  if n = 0 then (0, 1)
  else
    let up := ilog2 d + 24 - ilog2 n
    let down := ilog2 n - (ilog2 d + 24)
    if n * 2 ^ up < 2 ^ 24 * (d * 2 ^ down) then
      (rne (n * 2 ^ up) (d * 2 ^ down) * 2 ^ down, 2 ^ up)
    else
      (rne (n * 2 ^ up) (2 * (d * 2 ^ down)) * (2 * 2 ^ down), 2 ^ up)

/-- The C expression `(int) (((float) x / (float) pnow) * 3600.00)` of lines 414
and 426, on `long` operands: both conversions and the division round to
binary32, the product with the `double` constant is exact, and the conversion to
`int` truncates toward zero. It has no value when `pnow` is zero (the quotient
is infinite or NaN) or when the truncated product does not fit an `int`. -/
def remaining (x pnow : Int) : Option Int :=
  if pnow = 0 then none
  else
    let fx := round_float x.natAbs 1
    let fp := round_float pnow.natAbs 1
    let q := round_float (fx.1 * fp.2) (fx.2 * fp.1)
    let mag : Nat := 3600 * q.1 / q.2
    let rm : Int := if decide (x < 0) ≠ decide (pnow < 0) then -(mag : Int) else (mag : Int)
    if -(2 ^ 31) ≤ rm ∧ rm < 2 ^ 31 then some rm else none

/-- The C expression `efull - enow` on `long` operands. -/
def sub_long (a b : Int) : Option Int :=
  if -(2 ^ 63) ≤ a - b ∧ a - b < 2 ^ 63 then some (a - b) else none

/-- Lines 415-416 and 427-428: `hr` and `mn` from `rm`. -/
def hr_mn (rm : Int) : Int × Int := (Int.tdiv rm 3600, Int.tdiv (Int.tmod rm 3600) 60)

/-- The time part `%.2d:%.2d` of the battery text. -/
def fmt_time (rm : Int) : List Char :=
  fmt_2d (hr_mn rm).1 ++ ":".toList ++ fmt_2d (hr_mn rm).2

/-- Lines 412-416 and 424-428: the value of `rm` for the state, once the
attributes are read. -/
def battery_rm (state : BState) (efull enow pnow : Int) : Option Int :=
  match state with
  | BState.BST_CHA => (sub_long efull enow).bind fun x => remaining x pnow
  | BState.BST_DIS => remaining enow pnow
  | _ => none

/-- The function `battery_update`: the new state of `battery_label`; without
the device the label is left as it was. -/
def battery_update (dev : Option Device) (lbl : Label) : Option Label :=
  match dev with
  | none => some lbl
  | some d =>
    let state := battery_state d.POWER_SUPPLY_STATUS
    let capacity := battery_capacity d.POWER_SUPPLY_CAPACITY
    let enow := battery_energy d.POWER_SUPPLY_ENERGY_NOW
    let efull := battery_energy d.POWER_SUPPLY_ENERGY_FULL
    let pnow := battery_pnow d.POWER_SUPPLY_POWER_NOW
    let context := remove_class (remove_class lbl "warning") "critical"
    match state with
    | BState.BST_CHA =>
      (battery_rm state efull enow pnow).map fun rm =>
        set_label context
          (BATTERY_DEVICE ++ ": Char. ".toList ++ fmt_d capacity ++ "%, ".toList ++ fmt_time rm)
    | BState.BST_DIS =>
      (battery_rm state efull enow pnow).map fun rm =>
        let c1 :=
          if capacity < BATTERY_WARNING_CAPACITY_THRESHOLD then add_class context "warning"
          else context
        let c2 :=
          if capacity < BATTERY_CRITICAL_CAPACITY_THRESHOLD then add_class c1 "critical"
          else c1
        set_label c2
          (BATTERY_DEVICE ++ ": Disc. ".toList ++ fmt_d capacity ++ "%, ".toList ++ fmt_time rm)
    | BState.BST_FUL =>
      some (set_label (add_class context "warning") (BATTERY_DEVICE ++ ": Full".toList))
    | BState.BST_UNK =>
      some (set_label (add_class context "critical") (BATTERY_DEVICE ++ ": Error".toList))

/-! ## `on_property_changed` -/

inductive GdkFilterReturn where
  | GDK_FILTER_CONTINUE
  | GDK_FILTER_TRANSLATE
  | GDK_FILTER_REMOVE
deriving DecidableEq, Repr

/-- The event type `PropertyNotify` of `X11/X.h`. -/
def PropertyNotify : Int := 28

/-- The members of the `XEvent` union the filter reads: `type`, and `atom` of
the `XPropertyEvent` view. -/
structure XEvent where
  type : Int
  atom : Nat

/-- The array `atoms`, indexed by `MWM_MONITOR_TAGS` ... `MWM_FOCUSED_TAGSET`. -/
structure Atoms where
  MWM_MONITOR_TAGS : Nat
  MWM_MONITOR_TAGSET : Nat
  MWM_FOCUSED : Nat
  MWM_FOCUSED_TAGSET : Nat

/-- The function `on_property_changed`; `calls` counts the invocations of
`hints_update` so far. -/
def on_property_changed (atoms : Atoms) (e : XEvent) (calls : Nat) :
    GdkFilterReturn × Nat :=
  let calls1 :=
    if e.type = PropertyNotify then
      if e.atom = atoms.MWM_MONITOR_TAGS ∨ e.atom = atoms.MWM_MONITOR_TAGSET ∨
          e.atom = atoms.MWM_FOCUSED ∨ e.atom = atoms.MWM_FOCUSED_TAGSET then
        calls + 1
      else calls
    else calls
  (GdkFilterReturn.GDK_FILTER_REMOVE, calls1)

/-! ## Sample inputs -/

/-- Stack contents in which `hints_focused_monitor_tags[0]` is `1`, the class
buffer holds non-NUL bytes up to index 256 and a `NUL` at index 257. -/
def stack_sample : Locals :=
  { hints_focused_monitor_tags := 1 :: List.replicate 31 0
    hints_focused_monitor_tagset := 0
    hints_focused_client_class :=
      List.replicate 256 'x' ++ ['y', NUL] ++ List.replicate 766 'z'
    hints_focused_client_tagset := 0 }

/-- A server on which no window has a `WM_CLASS` reply. -/
def no_class : Nat → Option (List Char) := fun _ => none

/-- A server answering every `WM_CLASS` request with `payload`. -/
def class_server (payload : List Char) : Nat → Option (List Char) := fun _ => some payload

/-- The `WM_CLASS` payload `firefox NUL Firefox NUL`. -/
def firefox_payload : List Char := "firefox".toList ++ [NUL] ++ "Firefox".toList ++ [NUL]

/-- A `WM_CLASS` payload whose class token has 256 bytes. -/
def long_payload : List Char := "a".toList ++ [NUL] ++ List.replicate 256 'B' ++ [NUL]

/-- A monitor-tags array whose only non-zero entry is at index 9. -/
def tags_index_9 : List Int := List.replicate 9 0 ++ [1] ++ List.replicate 22 0

/-- A battery reporting Discharging, capacity 25, energy 5000, power 10000. -/
def discharging_sample : Device :=
  { POWER_SUPPLY_STATUS := some "Discharging".toList
    POWER_SUPPLY_CAPACITY := some "25".toList
    POWER_SUPPLY_ENERGY_NOW := some "5000".toList
    POWER_SUPPLY_ENERGY_FULL := some "10000".toList
    POWER_SUPPLY_POWER_NOW := some "10000".toList }

/-- A battery reporting Discharging with the power-now attribute `0`. -/
def zero_power_sample : Device :=
  { POWER_SUPPLY_STATUS := some "Discharging".toList
    POWER_SUPPLY_CAPACITY := some "25".toList
    POWER_SUPPLY_ENERGY_NOW := some "5000".toList
    POWER_SUPPLY_ENERGY_FULL := some "10000".toList
    POWER_SUPPLY_POWER_NOW := some "0".toList }

/-- A battery reporting Charging with energy-now 9000 above energy-full 4000,
power 10000. -/
def charging_sample : Device :=
  { POWER_SUPPLY_STATUS := some "Charging".toList
    POWER_SUPPLY_CAPACITY := some "25".toList
    POWER_SUPPLY_ENERGY_NOW := some "9000".toList
    POWER_SUPPLY_ENERGY_FULL := some "4000".toList
    POWER_SUPPLY_POWER_NOW := some "10000".toList }

/-- A battery reporting Discharging with energy 7 and power 10. -/
def inexact_sample : Device :=
  { POWER_SUPPLY_STATUS := some "Discharging".toList
    POWER_SUPPLY_CAPACITY := some "25".toList
    POWER_SUPPLY_ENERGY_NOW := some "7".toList
    POWER_SUPPLY_ENERGY_FULL := some "10".toList
    POWER_SUPPLY_POWER_NOW := some "10".toList }

/-- A battery reporting Discharging with energy 45000000 and no power-now
attribute. -/
def no_power_sample : Device :=
  { POWER_SUPPLY_STATUS := some "Discharging".toList
    POWER_SUPPLY_CAPACITY := some "90".toList
    POWER_SUPPLY_ENERGY_NOW := some "45000000".toList
    POWER_SUPPLY_ENERGY_FULL := some "50000000".toList
    POWER_SUPPLY_POWER_NOW := none }

/-- A label carrying the class `critical` from an earlier refresh. -/
def stale_label : Label := { text := "old".toList, classes := ["critical"] }

/-- A successful basic configuration with the ESSID `home` set and enabled. -/
def home_config : BasicConfig := { has_essid := 1, essid_on := 1, essid := "home".toList }

/-! ## Bit tests -/

theorem toInt64_of_lt {n : Nat} (h : n < 2 ^ 63) : toInt64 n = (n : Int) := by
  unfold toInt64
  have h1 : n % 2 ^ 64 = n := Nat.mod_eq_of_lt (by omega)
  rw [h1, if_pos h]

theorem longBits_ofNat {n : Nat} (h : n < 2 ^ 64) : longBits (n : Int) = n := by
  unfold longBits
  have : ((n : Int) % 2 ^ 64) = ((n % 2 ^ 64 : Nat) : Int) := by push_cast; rfl
  rw [this, Nat.mod_eq_of_lt h]; simp

theorem shl_long_one {i : Nat} (hi : i < 63) : shl_long 1 i = ((2 ^ i : Nat) : Int) := by
  unfold shl_long
  have h1 : longBits 1 = 1 := by decide
  rw [h1, Nat.one_shiftLeft]
  exact toInt64_of_lt (Nat.pow_lt_pow_right (by decide) hi)

theorem land_two_pow_eq_zero (x i : Nat) : x &&& 2 ^ i = 0 ↔ x.testBit i = false := by
  constructor
  · intro h
    have := Nat.testBit_land x (2 ^ i) i
    rw [h] at this
    simpa [Nat.testBit_two_pow] using this.symm
  · intro h
    apply Nat.eq_of_testBit_eq
    intro j
    rw [Nat.testBit_land, Nat.testBit_two_pow, Nat.zero_testBit]
    by_cases hij : i = j
    · subst hij; simp [h]
    · simp [hij]

theorem land_two_pow_le (x i : Nat) : x &&& 2 ^ i ≤ 2 ^ i := Nat.and_le_right

theorem longBits_toInt32_testBit (w : Nat) {i : Nat} (hi : i < 32) :
    (longBits (toInt32 w)).testBit i = w.testBit i := by
  have hw : w % 2 ^ 32 < 2 ^ 32 := Nat.mod_lt _ (by decide)
  have hb : (w % 2 ^ 32).testBit i = w.testBit i := by
    rw [Nat.testBit_mod_two_pow]; simp [hi]
  unfold toInt32
  split
  · rw [longBits_ofNat (by omega)]; exact hb
  · have : longBits (((w % 2 ^ 32 : Nat) : Int) - 2 ^ 32)
        = 2 ^ 32 * (2 ^ 32 - 1) + w % 2 ^ 32 := by
      unfold longBits
      omega
    rw [this, Nat.testBit_mul_pow_two_add _ hw, if_pos hi]; exact hb

/-- The test `tagset & (1L << i)` of the source reads bit `i` of the 32-bit word. -/
theorem mask_test (w : Nat) {i : Nat} (hi : i < 32) :
    land_long (toInt32 w) (shl_long 1 i) ≠ 0 ↔ w.testBit i = true := by
  unfold land_long
  rw [shl_long_one (by omega), longBits_ofNat (Nat.pow_lt_pow_right (by decide) (by omega))]
  have hle := land_two_pow_le (longBits (toInt32 w)) i
  have hlt : (2:Nat) ^ i < 2 ^ 63 := Nat.pow_lt_pow_right (by decide) (by omega)
  rw [toInt64_of_lt (by omega)]
  rw [Ne, Int.natCast_eq_zero, land_two_pow_eq_zero, longBits_toInt32_testBit w hi]
  simp

/-! ## The tag list (C1, C2, C10) -/

/-- The loop packs, in ascending order, one frame per index passing the test. -/
theorem tag_loop_eq (tags : List Int) (ts cts : Int) (n : Nat) :
    ∀ (i : Nat) (box : List Frame),
      tag_loop tags ts cts n i box =
        box ++ ((List.range' i n).filter
          (fun j => decide (tags.getD j 0 ≠ 0 ∨ land_long ts (shl_long 1 j) ≠ 0))).map
          (tag_frame ts cts) := by
  induction n with
  | zero => intro i box; simp [tag_loop]
  | succ n ih =>
    intro i box
    rw [tag_loop, List.range'_succ]
    by_cases h : tags.getD i 0 ≠ 0 ∨ land_long ts (shl_long 1 i) ≠ 0
    · have hf := List.filter_cons_of_pos
        (p := fun j => decide (tags.getD j 0 ≠ 0 ∨ land_long ts (shl_long 1 j) ≠ 0))
        (l := List.range' (i + 1) n) (a := i) (decide_eq_true h)
      rw [if_pos h, ih, hf, List.map_cons, List.append_assoc]
      rfl
    · have hf := List.filter_cons_of_neg
        (p := fun j => decide (tags.getD j 0 ≠ 0 ∨ land_long ts (shl_long 1 j) ≠ 0))
        (l := List.range' (i + 1) n) (a := i) (by simpa using h)
      rw [if_neg h, ih, hf]

theorem tag_frame_label {i : Nat} (hi : i < 32) (ts cts : Int) :
    (tag_frame ts cts i).label = Nat.toDigits 10 (i + 1) := by
  unfold tag_frame sprintf_d
  interval_cases i <;> rfl

theorem tag_frame_classes (m c : Nat) {i : Nat} (hi : i < 32) :
    (tag_frame (toInt32 m) (toInt32 c) i).classes =
      ["flat", "tag"]
        ++ (if m.testBit i = true then ["match-monitor-tagset"] else [])
        ++ (if c.testBit i = true then ["match-client-tagset"] else []) := by
  unfold tag_frame
  simp only [mask_test m hi, mask_test c hi]

theorem getD_eq_zero_of_all_zero {a : List Int} (hz : ∀ x ∈ a, x = 0) (i : Nat) :
    a.getD i 0 = 0 := by
  induction a generalizing i with
  | nil => rfl
  | cons x xs ih =>
    cases i with
    | zero => exact hz x (List.mem_cons_self x xs)
    | succ j => exact ih (fun y hy => hz y (List.mem_cons_of_mem x hy)) j

/-- Claim C1. For a 32-entry array `a`, a monitor mask `m` and a client mask `c`
that `hints_update` decodes, the frames packed into `tag_box` are, in ascending
order of `i` over `[0, 32)`, one frame for each `i` with `a[i] ≠ 0` or bit `i`
of `m` set; the frame for `i` is labelled with the decimal text of `i + 1` and
carries `match-monitor-tagset` iff bit `i` of `m` is set and
`match-client-tagset` iff bit `i` of `c` is set. With `a` all zero the rendered
indices are the set bits of `m` (bit 31 included), each flagged as matching the
monitor tagset. -/
theorem hints_update_tag_list (st : Locals) (wm_class : Nat → Option (List Char))
    (a : List Int) (m c : Nat) (f : Option Nat) (cls : List Char)
    (ha : a.length = 32) (hcls : focused_class st wm_class f = some cls) :
    (∃ d, hints_update st wm_class ⟨some a, some m, f, some c⟩ = some d ∧
      d.focused_label = cls ∧
      d.tag_box.map (fun fr => (fr.label, fr.classes)) =
        ((List.range 32).filter
          (fun i => decide (a.getD i 0 ≠ 0 ∨ m.testBit i = true))).map
          (fun i => rendered i (m.testBit i) (c.testBit i)) ∧
      ((∀ x ∈ a, x = 0) →
        d.tag_box.map (fun fr => (fr.label, fr.classes)) =
          ((List.range 32).filter (fun i => m.testBit i)).map
            (fun i => rendered i true (c.testBit i)))) ∧
    (∀ (i : Nat) (mon cli : Bool),
      ("match-monitor-tagset" ∈ (rendered i mon cli).2 ↔ mon = true) ∧
      ("match-client-tagset" ∈ (rendered i mon cli).2 ↔ cli = true)) := by
  have hmain : (tag_loop a (toInt32 m) (toInt32 c) 32 0 []).map (fun fr => (fr.label, fr.classes)) =
        ((List.range 32).filter
          (fun i => decide (a.getD i 0 ≠ 0 ∨ m.testBit i = true))).map
          (fun i => rendered i (m.testBit i) (c.testBit i)) := by
    rw [tag_loop_eq, List.nil_append, List.map_map, List.range_eq_range']
    have hf : (List.range' 0 32).filter
          (fun j => decide (a.getD j 0 ≠ 0 ∨ land_long (toInt32 m) (shl_long 1 j) ≠ 0))
        = (List.range' 0 32).filter
          (fun i => decide (a.getD i 0 ≠ 0 ∨ m.testBit i = true)) := by
      apply List.filter_congr
      intro i hi
      have hi32 : i < 32 := by
        have := (List.mem_range'_1.mp hi).2
        omega
      have := mask_test m hi32
      simp only [this]
    rw [hf]
    apply List.map_congr_left
    intro i hi
    have hi32 : i < 32 := by
      have := (List.mem_range'_1.mp (List.mem_of_mem_filter hi)).2
      omega
    simp only [Function.comp, rendered, tag_frame_label hi32, tag_frame_classes m c hi32]
  refine ⟨⟨⟨tag_loop a (toInt32 m) (toInt32 c) 32 0 [], cls⟩, ?_, rfl, hmain, ?_⟩, ?_⟩
  · have hm : memcpy_tags a = some a := by
      unfold memcpy_tags
      rw [if_pos (by omega), List.take_of_length_le (by omega)]
    simp only [hints_update, hm, hcls, Option.bind]
  · intro hz
    rw [hmain]
    have hf : (List.range 32).filter (fun i => decide (a.getD i 0 ≠ 0 ∨ m.testBit i = true))
        = (List.range 32).filter (fun i => m.testBit i) := by
      apply List.filter_congr
      intro i hi
      have h0 : a.getD i 0 = 0 := getD_eq_zero_of_all_zero hz i
      rw [h0]; simp
    rw [hf]
    apply List.map_congr_left
    intro i hi
    have := (List.mem_filter.mp hi).2
    rw [this]
  · intro i mon cli
    cases mon <;> cases cli <;> simp [rendered]

/-- Instance of C1: all-zero array, monitor mask with bits 0, 2 and 31, client
mask with bit 2, no focused-window reply. -/
theorem hints_update_tag_list_witness :
    (List.replicate 32 (0 : Int)).length = 32 ∧
    focused_class stack_sample no_class none = some "None".toList ∧
    (hints_update stack_sample no_class
        ⟨some (List.replicate 32 0), some (2 ^ 31 + 5), none, some 4⟩).map
      (fun d => d.tag_box.map (fun fr => (fr.label, fr.classes))) =
      some [("1".toList, ["flat", "tag", "match-monitor-tagset"]),
        ("3".toList, ["flat", "tag", "match-monitor-tagset", "match-client-tagset"]),
        ("32".toList, ["flat", "tag", "match-monitor-tagset"])] :=
  ⟨by decide, by decide, by
    obtain ⟨⟨d, h1, _, _, h4⟩, _⟩ :=
      hints_update_tag_list stack_sample no_class (List.replicate 32 0) (2 ^ 31 + 5) 4 none
        "None".toList (by decide) (by decide)
    rw [h1, Option.map, h4 (by decide)]
    decide⟩

/-- With all four replies absent the class shown is `None` and the tag list is
the loop run on the values the automatic variables held on entry. -/
theorem hints_update_all_absent (st : Locals) (wm_class : Nat → Option (List Char)) :
    hints_update st wm_class ⟨none, none, none, none⟩ =
      some ⟨tag_loop st.hints_focused_monitor_tags st.hints_focused_monitor_tagset
        st.hints_focused_client_tagset 32 0 [], "None".toList⟩ := rfl

/-- Claim C2, evaluated where it fails. With all four replies absent the class is
`None`, but the tag list is computed from whatever the automatic variables held:
on `stack_sample`, whose first array slot is non-zero, tag `1` is rendered. -/
theorem hints_update_absent_replies :
    stack_sample.hints_focused_monitor_tags.length = 32 ∧
    hints_update stack_sample no_class ⟨none, none, none, none⟩ =
      some ⟨[⟨2, "1".toList, ["flat", "tag"]⟩], "None".toList⟩ := by
  decide

/-- Claim C10, evaluated where it fails. Every index below 32 is labelled with the
decimal text of `i + 1`, but the bytes `sprintf` stores fit the 2-byte buffer
`str` only for `i < 9`: for the array with entry 9 set the label is `10` and 3
bytes are stored. -/
theorem hints_update_label_overrun :
    (∀ i : Fin 32, ∀ ts cts : Int,
      (tag_frame ts cts i.val).label = Nat.toDigits 10 (i.val + 1) ∧
      ((tag_frame ts cts i.val).stored ≤ str_size ↔ i.val < 9)) ∧
    tags_index_9.length = 32 ∧
    hints_update stack_sample no_class ⟨some tags_index_9, some 0, none, some 0⟩ =
      some ⟨[⟨3, "10".toList, ["flat", "tag"]⟩], "None".toList⟩ ∧
    str_size = 2 := by
  refine ⟨?_, by decide, by decide, rfl⟩
  intro i ts cts
  refine ⟨tag_frame_label i.isLt ts cts, ?_⟩
  have hs : (tag_frame ts cts i.val).stored = (Nat.toDigits 10 (i.val + 1)).length + 1 := by
    simp [tag_frame, sprintf_d]
  rw [hs]
  obtain ⟨i, hi⟩ := i
  show (Nat.toDigits 10 (i + 1)).length + 1 ≤ 2 ↔ i < 9
  interval_cases i <;> decide

/-! ## The focused class (C3) -/

theorem c_str_append {s : List Char} (hs : ∀ c ∈ s, c ≠ NUL) (r : List Char) :
    c_str (s ++ NUL :: r) = some s := by
  induction s with
  | nil => simp [c_str]
  | cons c t ih =>
    have hc : c ≠ NUL := hs c (List.mem_cons_self c t)
    have ht : ∀ x ∈ t, x ≠ NUL := fun x hx => hs x (List.mem_cons_of_mem c hx)
    rw [List.cons_append, c_str, if_neg hc, ih ht]
    rfl

theorem strncpy_bytes_short {s : List Char} (hs : ∀ c ∈ s, c ≠ NUL) (r : List Char) :
    ∀ n, s.length < n →
      strncpy_bytes (s ++ NUL :: r) n = some (s ++ List.replicate (n - s.length) NUL) := by
  induction s with
  | nil =>
    intro n hn
    cases n with
    | zero => simp at hn
    | succ k => simp [strncpy_bytes]
  | cons c t ih =>
    intro n hn
    have hc : c ≠ NUL := hs c (List.mem_cons_self c t)
    have ht : ∀ x ∈ t, x ≠ NUL := fun x hx => hs x (List.mem_cons_of_mem c hx)
    cases n with
    | zero => simp at hn
    | succ k =>
      have hk : t.length < k := by simpa using hn
      rw [List.cons_append, strncpy_bytes, if_neg hc, ih ht k hk]
      simp

/-- A class token shorter than 256 bytes is shown exactly, whatever the
instance token and the prior buffer contents. -/
theorem focused_class_short (st : Locals) (wm_class : Nat → Option (List Char))
    (window : Nat) (inst cls : List Char)
    (hi : ∀ c ∈ inst, c ≠ NUL) (hc : ∀ c ∈ cls, c ≠ NUL) (hlen : cls.length < 256)
    (hw : wm_class window = some (inst ++ [NUL] ++ cls ++ [NUL])) :
    focused_class st wm_class (some window) = some cls := by
  unfold focused_class
  simp only [hw]
  have e1 : inst ++ [NUL] ++ cls ++ [NUL] = inst ++ NUL :: (cls ++ [NUL]) := by simp
  have hlen1 : strlen (inst ++ [NUL] ++ cls ++ [NUL]) = some inst.length := by
    unfold strlen
    rw [e1, c_str_append hi]; rfl
  have hdrop : (inst ++ [NUL] ++ cls ++ [NUL]).drop (inst.length + 1) = cls ++ NUL :: [] := by
    rw [e1]
    have : inst ++ NUL :: (cls ++ [NUL]) = (inst ++ [NUL]) ++ (cls ++ [NUL]) := by simp
    rw [this, List.drop_append_of_le_length (by simp)]
    simp
  rw [hlen1]
  simp only [Option.bind, hdrop]
  unfold strncpy
  rw [strncpy_bytes_short hc [] 256 hlen]
  simp only [Option.map, Option.bind]
  have hk : 256 - cls.length = (256 - cls.length - 1) + 1 := by omega
  rw [hk, List.replicate_succ, List.append_assoc, List.cons_append]
  exact c_str_append hc _

/-- Without a focused-window reply, or without a class reply for the focused
window, the class shown is `None`. -/
theorem focused_class_absent (st : Locals) (wm_class : Nat → Option (List Char))
    (focused : Option Nat) (h : focused = none ∨ ∃ w, focused = some w ∧ wm_class w = none) :
    focused_class st wm_class focused = some "None".toList := by
  unfold focused_class
  rcases h with h | ⟨w, h, hw⟩
  · subst h; rfl
  · subst h; simp only [hw]; rfl

/-- Claim C3, evaluated on its example and where it fails. The payload
`firefox NUL Firefox NUL` yields `Firefox`. A class token of 256 bytes fills the
256 bytes `strncpy` stores and leaves no terminator: on `stack_sample` the text
shown runs on into the old buffer contents and has 257 characters. -/
theorem hints_update_class_unterminated :
    hints_update stack_sample (class_server firefox_payload) ⟨none, none, some 7, none⟩ =
      some ⟨[⟨2, "1".toList, ["flat", "tag"]⟩], "Firefox".toList⟩ ∧
    (hints_update stack_sample (class_server long_payload) ⟨none, none, some 7, none⟩).map
        (fun d => d.focused_label) = some (List.replicate 256 'B' ++ ['y']) ∧
    (List.replicate 256 'B' ++ ['y']).length = 257 := by
  decide

/-! ## The property-change filter (C8) -/

/-- Claim C8. `on_property_changed` invokes `hints_update` exactly once when the
event is a `PropertyNotify` whose atom is one of the four watched atoms, not at
all otherwise, and returns `GDK_FILTER_REMOVE` in every case. -/
theorem on_property_changed_filter (atoms : Atoms) (e : XEvent) (calls : Nat) :
    (on_property_changed atoms e calls).1 = GdkFilterReturn.GDK_FILTER_REMOVE ∧
    (on_property_changed atoms e calls).2 =
      calls +
        (if e.type = PropertyNotify ∧
            (e.atom = atoms.MWM_MONITOR_TAGS ∨ e.atom = atoms.MWM_MONITOR_TAGSET ∨
              e.atom = atoms.MWM_FOCUSED ∨ e.atom = atoms.MWM_FOCUSED_TAGSET)
          then 1 else 0) := by
  refine ⟨rfl, ?_⟩
  unfold on_property_changed
  by_cases ht : e.type = PropertyNotify
  · by_cases ha : e.atom = atoms.MWM_MONITOR_TAGS ∨ e.atom = atoms.MWM_MONITOR_TAGSET ∨
        e.atom = atoms.MWM_FOCUSED ∨ e.atom = atoms.MWM_FOCUSED_TAGSET
    · simp only [ht, ha, if_true, and_self]
    · simp only [ht, ha, if_true, if_false, and_false, Nat.add_zero]
  · simp only [ht, if_false, false_and, Nat.add_zero]

/-! ## Style classes -/

theorem mem_remove_class (l : Label) (c x : String) :
    x ∈ (remove_class l c).classes ↔ x ∈ l.classes ∧ x ≠ c := by
  simp [remove_class]

theorem text_set_label (l : Label) (t : List Char) : (set_label l t).text = t := rfl

/-! ## Wireless (C6, C7) -/

theorem context_classes (lbl : Label) :
    (remove_class (remove_class lbl "warning") "critical").classes =
      lbl.classes.filter (fun c => decide (c ≠ "warning" ∧ c ≠ "critical")) := by
  simp [remove_class, List.filter_filter, and_comm]

theorem context_no_flag (lbl : Label) :
    "warning" ∉ (remove_class (remove_class lbl "warning") "critical").classes ∧
    "critical" ∉ (remove_class (remove_class lbl "warning") "critical").classes := by
  constructor <;> simp [mem_remove_class]

theorem flagged_label (lbl : Label) (c : String) (t : List Char)
    (h : c ∉ (remove_class (remove_class lbl "warning") "critical").classes) :
    set_label (add_class (remove_class (remove_class lbl "warning") "critical") c) t =
      ⟨t, lbl.classes.filter (fun x => decide (x ≠ "warning" ∧ x ≠ "critical")) ++ [c]⟩ := by
  unfold add_class
  rw [if_neg h]
  show (⟨t, (remove_class (remove_class lbl "warning") "critical").classes ++ [c]⟩ : Label) = _
  rw [context_classes]

theorem unflagged_label (lbl : Label) (t : List Char) :
    set_label (remove_class (remove_class lbl "warning") "critical") t =
      ⟨t, lbl.classes.filter (fun x => decide (x ≠ "warning" ∧ x ≠ "critical"))⟩ := by
  show (⟨t, (remove_class (remove_class lbl "warning") "critical").classes⟩ : Label) = _
  rw [context_classes]

theorem wireless_quality_none (basic : Option BasicConfig) (range : Option (Fin 256))
    (stats : Option Stats) :
    wireless_quality basic range stats = none ↔
      ∃ b max_qual s, basic = some b ∧ range = some max_qual ∧ stats = some s ∧
        (s.level.val ≠ 0 ∨ s.updated.val &&& IW_QUAL_DBM ≠ 0) ∧
        s.updated.val &&& IW_QUAL_QUAL_INVALID = 0 ∧ max_qual.val = 0 := by
  unfold wireless_quality
  cases basic with
  | none => simp
  | some b =>
    cases range with
    | none => simp
    | some mq =>
      cases stats with
      | none => simp
      | some s =>
        simp only []
        by_cases h1 : s.level.val ≠ 0 ∨ s.updated.val &&& IW_QUAL_DBM ≠ 0
        · rw [if_pos h1]
          by_cases h2 : s.updated.val &&& IW_QUAL_QUAL_INVALID = 0
          · rw [if_pos (by simpa using h2)]
            by_cases h3 : mq.val = 0
            · rw [if_pos h3]
              exact ⟨fun _ => ⟨b, mq, s, rfl, rfl, rfl, h1, h2, h3⟩, fun _ => rfl⟩
            · rw [if_neg h3]
              constructor
              · intro h; cases h
              · rintro ⟨_, mq', _, _, hr, _, _, _, h0⟩
                cases hr
                exact absurd h0 h3
          · rw [if_neg (by simpa using h2)]
            constructor
            · intro h; cases h
            · rintro ⟨_, _, s', _, _, hs, _, hv, _⟩
              cases hs
              exact absurd hv h2
        · rw [if_neg h1]
          constructor
          · intro h; cases h
          · rintro ⟨_, _, s', _, _, hs, hl, _, _⟩
            cases hs
            exact absurd hl h1

/-- Claim C6. The state is Unknown iff the basic-config query fails, Disconnected
iff it succeeds with the ESSID unset or disabled, Connected iff it succeeds with
the ESSID set and enabled. A failed basic-config query is rendered as
`wlp4s0: Error` with `critical`, whatever the label held before. Whenever the
quality has a value, `wireless_update` returns the rendering of the classified
state: `wlp4s0: Disconnected` with `warning` for Disconnected, the ESSID and the
quality with neither flag for Connected. When the range or the statistics query
fails the quality is 0 and the state is rendered as classified. The quality has
no value, and nothing is rendered, exactly when the three queries succeeded, the
quality branch is taken and `max_qual` is zero. -/
theorem wireless_update_classification (basic : Option BasicConfig)
    (range : Option (Fin 256)) (stats : Option Stats) (lbl : Label) :
    (wireless_state basic = WState.WST_UNK ↔ basic = none) ∧
    (wireless_state basic = WState.WST_DIS ↔
      ∃ b, basic = some b ∧ (b.has_essid = 0 ∨ b.essid_on = 0)) ∧
    (wireless_state basic = WState.WST_CON ↔
      ∃ b, basic = some b ∧ b.has_essid ≠ 0 ∧ b.essid_on ≠ 0) ∧
    wireless_update none range stats lbl =
      some ⟨"wlp4s0: Error".toList,
        lbl.classes.filter (fun c => decide (c ≠ "warning" ∧ c ≠ "critical")) ++ ["critical"]⟩ ∧
    (∀ quality, wireless_quality basic range stats = some quality →
      wireless_update basic range stats lbl =
        some (wireless_render (wireless_state basic) (wireless_ssid basic) quality lbl)) ∧
    (∀ b quality, basic = some b → (b.has_essid = 0 ∨ b.essid_on = 0) →
      wireless_quality basic range stats = some quality →
      wireless_update basic range stats lbl =
        some ⟨"wlp4s0: Disconnected".toList,
          lbl.classes.filter (fun c => decide (c ≠ "warning" ∧ c ≠ "critical")) ++
            ["warning"]⟩) ∧
    (∀ b quality, basic = some b → b.has_essid ≠ 0 → b.essid_on ≠ 0 →
      wireless_quality basic range stats = some quality →
      wireless_update basic range stats lbl =
        some ⟨"wlp4s0: ".toList ++ b.essid ++ ", ".toList ++ fmt_d quality ++ "%".toList,
          lbl.classes.filter (fun c => decide (c ≠ "warning" ∧ c ≠ "critical"))⟩) ∧
    ((range = none ∨ stats = none) →
      wireless_quality basic range stats = some 0 ∧
      wireless_update basic range stats lbl =
        some (wireless_render (wireless_state basic) (wireless_ssid basic) 0 lbl)) ∧
    (∀ out, wireless_update basic range stats lbl = some out →
      ∃ quality, wireless_quality basic range stats = some quality ∧
        out = wireless_render (wireless_state basic) (wireless_ssid basic) quality lbl) ∧
    (wireless_update basic range stats lbl = none ↔
      ∃ b max_qual s, basic = some b ∧ range = some max_qual ∧ stats = some s ∧
        (s.level.val ≠ 0 ∨ s.updated.val &&& IW_QUAL_DBM ≠ 0) ∧
        s.updated.val &&& IW_QUAL_QUAL_INVALID = 0 ∧ max_qual.val = 0) := by
  have hupd : ∀ quality, wireless_quality basic range stats = some quality →
      wireless_update basic range stats lbl =
        some (wireless_render (wireless_state basic) (wireless_ssid basic) quality lbl) := by
    intro q hq
    unfold wireless_update
    rw [hq]; rfl
  have hfail : (range = none ∨ stats = none) →
      wireless_quality basic range stats = some 0 := by
    intro h
    unfold wireless_quality
    cases basic with
    | none => rfl
    | some b =>
      rcases h with h | h
      · subst h; rfl
      · subst h; cases range <;> rfl
  obtain ⟨hnw, hnc⟩ := context_no_flag lbl
  refine ⟨?_, ?_, ?_, ?_, hupd, ?_, ?_, ?_, ?_, ?_⟩
  · cases basic with
    | none => exact ⟨fun _ => rfl, fun _ => rfl⟩
    | some b =>
      show (if b.has_essid ≠ 0 ∧ b.essid_on ≠ 0 then WState.WST_CON else WState.WST_DIS) = _ ↔ _
      split <;> simp
  · cases basic with
    | none => simp [wireless_state]
    | some b =>
      show (if b.has_essid ≠ 0 ∧ b.essid_on ≠ 0 then WState.WST_CON else WState.WST_DIS) = _ ↔ _
      by_cases h : b.has_essid ≠ 0 ∧ b.essid_on ≠ 0
      · rw [if_pos h]; simp; exact h
      · rw [if_neg h]; simp; by_contra hc; push_neg at hc; exact h ⟨by tauto, by tauto⟩
  · cases basic with
    | none => simp [wireless_state]
    | some b =>
      show (if b.has_essid ≠ 0 ∧ b.essid_on ≠ 0 then WState.WST_CON else WState.WST_DIS) = _ ↔ _
      by_cases h : b.has_essid ≠ 0 ∧ b.essid_on ≠ 0
      · rw [if_pos h]; simp; exact h
      · rw [if_neg h]; simp; intro h1; by_contra h2; exact h ⟨h1, h2⟩
  · simp only [wireless_update, wireless_quality, Option.map, wireless_state, wireless_ssid,
      wireless_render]
    rw [flagged_label lbl "critical" _ hnc]
    rfl
  · intro b q hb hoff hq
    rw [hupd q hq]
    subst hb
    have hs : wireless_state (some b) = WState.WST_DIS := by
      show (if b.has_essid ≠ 0 ∧ b.essid_on ≠ 0 then WState.WST_CON else WState.WST_DIS) = _
      rw [if_neg]
      rintro ⟨h1, h2⟩
      rcases hoff with h | h
      · exact h1 h
      · exact h2 h
    rw [hs]
    simp only [wireless_render]
    rw [flagged_label lbl "warning" _ hnw]
    rfl
  · intro b q hb h1 h2 hq
    rw [hupd q hq]
    subst hb
    have hs : wireless_state (some b) = WState.WST_CON := by
      show (if b.has_essid ≠ 0 ∧ b.essid_on ≠ 0 then WState.WST_CON else WState.WST_DIS) = _
      rw [if_pos ⟨h1, h2⟩]
    rw [hs]
    simp only [wireless_render, wireless_ssid]
    rw [unflagged_label]
    rfl
  · intro h
    exact ⟨hfail h, hupd 0 (hfail h)⟩
  · intro out h
    unfold wireless_update at h
    rw [Option.map_eq_some'] at h
    obtain ⟨q, hq, rfl⟩ := h
    exact ⟨q, hq, rfl⟩
  · unfold wireless_update
    rw [Option.map_eq_none']
    exact wireless_quality_none basic range stats

/-- Instance of C6: ESSID `home` set and enabled, all three queries succeeded
with `qual = 35` and `max_qual = 70`, on a label that carried `critical`:
rendered Connected with quality 50 and neither flag. -/
theorem wireless_update_classification_witness :
    home_config.has_essid ≠ 0 ∧ home_config.essid_on ≠ 0 ∧
    wireless_quality (some home_config) (some 70) (some ⟨35, 1, 0⟩) = some 50 ∧
    wireless_update (some home_config) (some 70) (some ⟨35, 1, 0⟩) stale_label =
      some ⟨"wlp4s0: home, 50%".toList, []⟩ :=
  ⟨by decide, by decide, by decide,
    ((wireless_update_classification (some home_config) (some 70) (some ⟨35, 1, 0⟩)
      stale_label).2.2.2.2.2.2.1 home_config 50 rfl (by decide) (by decide)
      (by decide)).trans (by decide)⟩

/-- Claim C7 fails as stated: with `qual = 80` and `max_qual = 70` the quality is
114, outside `0..100`. -/
theorem wireless_quality_above_100 :
    wireless_quality (some home_config) (some 70) (some ⟨80, 1, 0⟩) = some 114 ∧
    wireless_update (some home_config) (some 70) (some ⟨80, 1, 0⟩) stale_label =
      some ⟨"wlp4s0: home, 114%".toList, []⟩ := by
  decide

/-- Claim C7, amended. When the basic-config, range and statistics queries all
succeeded, the statistics carry a non-zero level or the dBm flag, the quality
subfield is not flagged invalid and `max_qual` is non-zero, the quality is
`qual * 100 / max_qual`, at most 25500, and at most 100 when `qual ≤ max_qual`.
When a query failed, or the level is zero without the dBm flag, or the quality
subfield is flagged invalid, the quality is 0. -/
theorem wireless_quality_value (basic : Option BasicConfig) (range : Option (Fin 256))
    (stats : Option Stats) :
    (∀ b max_qual s, basic = some b → range = some max_qual → stats = some s →
      (s.level.val ≠ 0 ∨ s.updated.val &&& IW_QUAL_DBM ≠ 0) →
      s.updated.val &&& IW_QUAL_QUAL_INVALID = 0 → max_qual.val ≠ 0 →
        wireless_quality basic range stats =
            some ((s.qual.val * 100 / max_qual.val : Nat) : Int) ∧
          s.qual.val * 100 / max_qual.val ≤ 25500 ∧
          (s.qual.val ≤ max_qual.val → s.qual.val * 100 / max_qual.val ≤ 100)) ∧
    ((basic = none ∨ range = none ∨ stats = none ∨
        ∃ s, stats = some s ∧
          ((s.level.val = 0 ∧ s.updated.val &&& IW_QUAL_DBM = 0) ∨
            s.updated.val &&& IW_QUAL_QUAL_INVALID ≠ 0)) →
      wireless_quality basic range stats = some 0) := by
  constructor
  · intro b max_qual s hb hr hs hlev hinv hmax
    subst hb hr hs
    refine ⟨?_, ?_, ?_⟩
    · simp only [wireless_quality, if_pos hlev, hinv, ne_eq, not_true_eq_false,
        not_false_eq_true, if_true, if_neg hmax]
      rw [Int.tdiv_eq_ediv (by positivity) (by positivity)]
      norm_cast
    · have hq : s.qual.val < 256 := s.qual.isLt
      have hpos : 0 < max_qual.val := Nat.pos_of_ne_zero hmax
      calc s.qual.val * 100 / max_qual.val ≤ s.qual.val * 100 := Nat.div_le_self _ _
        _ ≤ 25500 := by omega
    · intro hle
      have hpos : 0 < max_qual.val := Nat.pos_of_ne_zero hmax
      rw [Nat.div_le_iff_le_mul_add_pred hpos]
      nlinarith
  · intro h
    unfold wireless_quality
    cases basic with
    | none => rfl
    | some b =>
      cases range with
      | none => rfl
      | some mq =>
        cases stats with
        | none => rfl
        | some s =>
          rcases h with h | h | h | ⟨s', hs, h⟩
          · cases h
          · cases h
          · cases h
          · cases hs
            rcases h with ⟨h1, h2⟩ | h
            · simp [h1, h2]
            · simp [h]

/-- Instance of C7 amended: `qual = 35`, `max_qual = 70` gives 50. -/
theorem wireless_quality_value_witness :
    wireless_quality (some home_config) (some 70) (some ⟨35, 1, 0⟩) = some 50 :=
  ((wireless_quality_value (some home_config) (some 70) (some ⟨35, 1, 0⟩)).1
    home_config 70 ⟨35, 1, 0⟩ rfl rfl rfl (Or.inl (by decide)) (by decide) (by decide)).1

/-! ## Battery severity and the power divisor (C5, C9) -/

/-- Claim C9, evaluated where it fails. An absent power-now attribute gives the
divisor 1, but the attribute texts `0` and `n/a` give the divisor 0; the
remaining-time expression then has no value and a Discharging sample with
power-now `0` is not rendered. -/
theorem battery_update_zero_power :
    battery_pnow none = 1 ∧
    battery_pnow (some "0".toList) = 0 ∧
    battery_pnow (some "n/a".toList) = 0 ∧
    remaining 5000 0 = none ∧
    battery_update (some zero_power_sample) stale_label = none := by
  decide

/-! ## Remaining time (C4) -/

theorem log2_fuel_spec : ∀ (fuel n : Nat), 0 < n → n ≤ fuel →
    2 ^ log2_fuel fuel n ≤ n ∧ n < 2 ^ (log2_fuel fuel n + 1) := by
  intro fuel
  induction fuel with
  | zero => intro n h0 h1; omega
  | succ f ih =>
    intro n h0 h1
    unfold log2_fuel
    by_cases h2 : n < 2
    · rw [if_pos h2]
      simp only [pow_zero, zero_add, pow_one]
      omega
    · rw [if_neg h2]
      have hh := ih (n / 2) (by omega) (by omega)
      obtain ⟨ha, hb⟩ := hh
      rw [pow_succ, pow_succ]
      constructor <;> omega

theorem ilog2_spec {n : Nat} (h : 0 < n) : 2 ^ ilog2 n ≤ n ∧ n < 2 ^ (ilog2 n + 1) :=
  log2_fuel_spec n n h (Nat.le_refl n)

theorem rne_spec (n : Nat) {d : Nat} (hd : 0 < d) :
    2 * (rne n d * d) ≤ 2 * n + d ∧ 2 * n ≤ 2 * (rne n d * d) + d := by
  have h := Nat.div_add_mod n d
  have hr := Nat.mod_lt n hd
  unfold rne
  have e1 : (n / d + 1) * d = d * (n / d) + d := by ring
  have e2 : n / d * d = d * (n / d) := by ring
  split_ifs <;> simp only [e1, e2] <;> constructor <;> omega

theorem round_float_spec {n d : Nat} (hn : 0 < n) (hd : 0 < d) :
    0 < (round_float n d).2 ∧
    2 ^ 24 * ((round_float n d).1 * d) ≤ (2 ^ 24 + 1) * (n * (round_float n d).2) ∧
    (2 ^ 24 - 1) * (n * (round_float n d).2) ≤ 2 ^ 24 * ((round_float n d).1 * d) := by
  obtain ⟨hn1, hn2⟩ := ilog2_spec hn
  obtain ⟨hd1, hd2⟩ := ilog2_spec hd
  have hscale : 2 ^ 23 * (d * 2 ^ (ilog2 n - (ilog2 d + 24))) ≤
      n * 2 ^ (ilog2 d + 24 - ilog2 n) := by
    by_cases hc : ilog2 n ≤ ilog2 d + 24
    · have h0 : ilog2 n - (ilog2 d + 24) = 0 := by omega
      rw [h0, pow_zero, mul_one]
      have h1 : 2 ^ 23 * 2 ^ (ilog2 d + 1) = 2 ^ ilog2 n * 2 ^ (ilog2 d + 24 - ilog2 n) := by
        rw [← pow_add, ← pow_add]; congr 1; omega
      calc 2 ^ 23 * d ≤ 2 ^ 23 * 2 ^ (ilog2 d + 1) := Nat.mul_le_mul_left _ (le_of_lt hd2)
        _ = 2 ^ ilog2 n * 2 ^ (ilog2 d + 24 - ilog2 n) := h1
        _ ≤ n * 2 ^ (ilog2 d + 24 - ilog2 n) := Nat.mul_le_mul_right _ hn1
    · have h0 : ilog2 d + 24 - ilog2 n = 0 := by omega
      rw [h0, pow_zero, mul_one]
      have h1 : 2 ^ 23 * (2 ^ (ilog2 d + 1) * 2 ^ (ilog2 n - (ilog2 d + 24))) = 2 ^ ilog2 n := by
        rw [← pow_add, ← pow_add]; congr 1; omega
      calc 2 ^ 23 * (d * 2 ^ (ilog2 n - (ilog2 d + 24)))
          ≤ 2 ^ 23 * (2 ^ (ilog2 d + 1) * 2 ^ (ilog2 n - (ilog2 d + 24))) :=
            Nat.mul_le_mul_left _ (Nat.mul_le_mul_right _ (le_of_lt hd2))
        _ = 2 ^ ilog2 n := h1
        _ ≤ n := hn1
  have hup : 0 < 2 ^ (ilog2 d + 24 - ilog2 n) := Nat.pow_pos (by decide)
  have hdown : 0 < 2 ^ (ilog2 n - (ilog2 d + 24)) := Nat.pow_pos (by decide)
  unfold round_float
  rw [if_neg (by omega)]
  simp only []
  generalize 2 ^ (ilog2 d + 24 - ilog2 n) = U at *
  generalize 2 ^ (ilog2 n - (ilog2 d + 24)) = W at *
  have hD : 0 < d * W := Nat.mul_pos hd hdown
  split
  · obtain ⟨r1, r2⟩ := rne_spec (n * U) hD
    generalize rne (n * U) (d * W) = m at *
    have e : m * W * d = m * (d * W) := by ring
    refine ⟨hup, ?_, ?_⟩ <;> dsimp only <;> rw [e] <;> omega
  · rename_i hlt
    have hD2 : 0 < 2 * (d * W) := by omega
    obtain ⟨r1, r2⟩ := rne_spec (n * U) hD2
    generalize rne (n * U) (2 * (d * W)) = m at *
    have e : m * (2 * W) * d = m * (2 * (d * W)) := by ring
    refine ⟨hup, ?_, ?_⟩ <;> dsimp only <;> rw [e] <;> omega

theorem round_float_rat {n d : Nat} (hn : 0 < n) (hd : 0 < d) :
    (0 : ℚ) < ((round_float n d).2 : ℚ) ∧
    (0 : ℚ) < ((round_float n d).1 : ℚ) ∧
    ((round_float n d).1 : ℚ) / (round_float n d).2 ≤ (1 + 1 / 2 ^ 24) * ((n : ℚ) / d) ∧
    (1 - 1 / 2 ^ 24) * ((n : ℚ) / d) ≤ ((round_float n d).1 : ℚ) / (round_float n d).2 := by
  obtain ⟨hb, h1, h2⟩ := round_float_spec hn hd
  generalize (round_float n d).1 = a at *
  generalize (round_float n d).2 = b at *
  have hbq : (0 : ℚ) < b := by exact_mod_cast hb
  have hnq : (0 : ℚ) < n := by exact_mod_cast hn
  have hdq : (0 : ℚ) < d := by exact_mod_cast hd
  have k1 : (2 ^ 24 : ℚ) * (a * d) ≤ (2 ^ 24 + 1) * (n * b) := by exact_mod_cast h1
  have k2 : ((2 ^ 24 : ℚ) - 1) * (n * b) ≤ 2 ^ 24 * (a * d) := by
    have : (((2 ^ 24 - 1 : Nat) : ℚ)) = (2 ^ 24 : ℚ) - 1 := by norm_num
    rw [← this]; exact_mod_cast h2
  have haq : (0 : ℚ) < a := by
    by_contra hc
    have ha0 : (a : ℚ) = 0 := le_antisymm (not_lt.mp hc) (by positivity)
    rw [ha0] at k2
    have : (0 : ℚ) < ((2 ^ 24 : ℚ) - 1) * (n * b) := by positivity
    linarith
  refine ⟨hbq, haq, ?_, ?_⟩
  · rw [div_le_iff₀ hbq]
    have e : (1 + 1 / 2 ^ 24) * ((n : ℚ) / d) * b = ((2 ^ 24 + 1) * (n * b)) / (2 ^ 24 * d) := by
      field_simp
      ring
    rw [e, le_div_iff₀ (by positivity)]
    linarith
  · rw [le_div_iff₀ hbq]
    have e : (1 - 1 / 2 ^ 24) * ((n : ℚ) / d) * b = ((2 ^ 24 - 1) * (n * b)) / (2 ^ 24 * d) := by
      field_simp
      ring
    rw [e, div_le_iff₀ (by positivity)]
    linarith

theorem float_quotient_bounds {X P : Nat} (hX : 0 < X) (hP : 0 < P) :
    (0 : ℚ) < ((round_float ((round_float X 1).1 * (round_float P 1).2)
        ((round_float X 1).2 * (round_float P 1).1)).2 : ℚ) ∧
    ((round_float ((round_float X 1).1 * (round_float P 1).2)
        ((round_float X 1).2 * (round_float P 1).1)).1 : ℚ) /
      (round_float ((round_float X 1).1 * (round_float P 1).2)
        ((round_float X 1).2 * (round_float P 1).1)).2 ≤ (1 + 1 / 2 ^ 22) * ((X : ℚ) / P) ∧
    (1 - 1 / 2 ^ 22) * ((X : ℚ) / P) ≤
      ((round_float ((round_float X 1).1 * (round_float P 1).2)
        ((round_float X 1).2 * (round_float P 1).1)).1 : ℚ) /
      (round_float ((round_float X 1).1 * (round_float P 1).2)
        ((round_float X 1).2 * (round_float P 1).1)).2 := by
  obtain ⟨hb1, ha1, u1, l1⟩ := round_float_rat hX (Nat.one_pos)
  obtain ⟨hb2, ha2, u2, l2⟩ := round_float_rat hP (Nat.one_pos)
  generalize (round_float X 1).1 = a1 at *
  generalize (round_float X 1).2 = b1 at *
  generalize (round_float P 1).1 = a2 at *
  generalize (round_float P 1).2 = b2 at *
  have hn3 : 0 < a1 * b2 := by
    have : (0 : ℚ) < ((a1 * b2 : Nat) : ℚ) := by push_cast; positivity
    exact_mod_cast this
  have hd3 : 0 < b1 * a2 := by
    have : (0 : ℚ) < ((b1 * a2 : Nat) : ℚ) := by push_cast; positivity
    exact_mod_cast this
  obtain ⟨hb3, _, u3, l3⟩ := round_float_rat hn3 hd3
  generalize (round_float (a1 * b2) (b1 * a2)).1 = a3 at *
  generalize (round_float (a1 * b2) (b1 * a2)).2 = b3 at *
  have hXq : (0 : ℚ) < X := by exact_mod_cast hX
  have hPq : (0 : ℚ) < P := by exact_mod_cast hP
  simp only [Nat.cast_one, div_one] at u1 l1 u2 l2
  have hq : (((a1 * b2 : Nat) : ℚ)) / ((b1 * a2 : Nat) : ℚ) = ((a1 : ℚ) / b1) / ((a2 : ℚ) / b2) := by
    push_cast; field_simp
  rw [hq] at u3 l3
  set Q1 : ℚ := (a1 : ℚ) / b1 with hQ1
  set Q2 : ℚ := (a2 : ℚ) / b2 with hQ2
  have hQ1 : 0 < Q1 := by positivity
  have hQ2 : 0 < Q2 := by positivity
  have hlowP : (0 : ℚ) < (1 - 1 / 2 ^ 24) * P := by
    have : (0 : ℚ) < 1 - 1 / 2 ^ 24 := by norm_num
    positivity
  refine ⟨hb3, ?_, ?_⟩
  · have s1 : Q1 / Q2 ≤ ((1 + 1 / 2 ^ 24) * X) / ((1 - 1 / 2 ^ 24) * P) :=
      div_le_div₀ (by positivity) u1 hlowP l2
    have s2 : (1 + 1 / 2 ^ 24) * (((1 + 1 / 2 ^ 24) * X) / ((1 - 1 / 2 ^ 24) * P))
        ≤ (1 + 1 / 2 ^ 22) * ((X : ℚ) / P) := by
      have e : (1 + 1 / 2 ^ 24) * (((1 + 1 / 2 ^ 24) * (X : ℚ)) / ((1 - 1 / 2 ^ 24) * P))
          = ((1 + 1 / 2 ^ 24) * (1 + 1 / 2 ^ 24) / (1 - 1 / 2 ^ 24)) * ((X : ℚ) / P) := by
        field_simp
        ring
      rw [e]
      apply mul_le_mul_of_nonneg_right _ (by positivity)
      norm_num
    calc (a3 : ℚ) / b3 ≤ (1 + 1 / 2 ^ 24) * (Q1 / Q2) := u3
      _ ≤ (1 + 1 / 2 ^ 24) * (((1 + 1 / 2 ^ 24) * X) / ((1 - 1 / 2 ^ 24) * P)) :=
          mul_le_mul_of_nonneg_left s1 (by norm_num)
      _ ≤ (1 + 1 / 2 ^ 22) * ((X : ℚ) / P) := s2
  · have hlowX : (0 : ℚ) ≤ (1 - 1 / 2 ^ 24) * X := by
      have : (0 : ℚ) < 1 - 1 / 2 ^ 24 := by norm_num
      positivity
    have s1 : ((1 - 1 / 2 ^ 24) * X) / ((1 + 1 / 2 ^ 24) * P) ≤ Q1 / Q2 :=
      div_le_div₀ (le_of_lt hQ1) l1 hQ2 u2
    have s2 : (1 - 1 / 2 ^ 22) * ((X : ℚ) / P) ≤
        (1 - 1 / 2 ^ 24) * (((1 - 1 / 2 ^ 24) * X) / ((1 + 1 / 2 ^ 24) * P)) := by
      have e : (1 - 1 / 2 ^ 24) * (((1 - 1 / 2 ^ 24) * (X : ℚ)) / ((1 + 1 / 2 ^ 24) * P))
          = ((1 - 1 / 2 ^ 24) * (1 - 1 / 2 ^ 24) / (1 + 1 / 2 ^ 24)) * ((X : ℚ) / P) := by
        field_simp
        ring
      rw [e]
      apply mul_le_mul_of_nonneg_right _ (by positivity)
      norm_num
    calc (1 - 1 / 2 ^ 22) * ((X : ℚ) / P)
        ≤ (1 - 1 / 2 ^ 24) * (((1 - 1 / 2 ^ 24) * X) / ((1 + 1 / 2 ^ 24) * P)) := s2
      _ ≤ (1 - 1 / 2 ^ 24) * (Q1 / Q2) := mul_le_mul_of_nonneg_left s1 (by norm_num)
      _ ≤ (a3 : ℚ) / b3 := l3

theorem nat_div_bounds (a : Nat) {b : Nat} (hb : 0 < b) :
    ((a / b : Nat) : ℚ) ≤ (a : ℚ) / b ∧ (a : ℚ) / b < ((a / b : Nat) : ℚ) + 1 := by
  have hbq : (0 : ℚ) < b := by exact_mod_cast hb
  have h := Nat.div_add_mod a b
  have hr := Nat.mod_lt a hb
  have hq : (b : ℚ) * ((a / b : Nat) : ℚ) + ((a % b : Nat) : ℚ) = a := by exact_mod_cast h
  have hrq : ((a % b : Nat) : ℚ) < b := by exact_mod_cast hr
  have hr0 : (0 : ℚ) ≤ ((a % b : Nat) : ℚ) := by positivity
  constructor
  · rw [le_div_iff₀ hbq]; nlinarith
  · rw [div_lt_iff₀ hbq]; nlinarith

theorem remaining_spec (x p : Int) (hx : 0 ≤ x) (hp : 0 < p) (hr : x < 596523 * p) :
    ∃ rm : Int, remaining x p = some rm ∧ 0 ≤ rm ∧
      (3600 * (x : ℚ) / p) * (1 - 1 / 2 ^ 22) - 1 < rm ∧
      (rm : ℚ) ≤ (3600 * (x : ℚ) / p) * (1 + 1 / 2 ^ 22) := by
  obtain ⟨X, rfl⟩ := Int.eq_ofNat_of_zero_le hx
  obtain ⟨P, rfl⟩ := Int.eq_ofNat_of_zero_le (le_of_lt hp)
  have hP : 0 < P := by exact_mod_cast hp
  have hPq : (0 : ℚ) < P := by exact_mod_cast hP
  have hXP : (X : ℚ) < 596523 * P := by exact_mod_cast hr
  have hsx : decide ((X : Int) < 0) = false := by simp
  have hsp : decide ((P : Int) < 0) = false := by simp
  have hmag : ∃ mag : Nat,
      3600 * (round_float ((round_float X 1).1 * (round_float P 1).2)
        ((round_float X 1).2 * (round_float P 1).1)).1 /
        (round_float ((round_float X 1).1 * (round_float P 1).2)
        ((round_float X 1).2 * (round_float P 1).1)).2 = mag ∧
      (3600 * (X : ℚ) / P) * (1 - 1 / 2 ^ 22) - 1 < mag ∧
      (mag : ℚ) ≤ (3600 * (X : ℚ) / P) * (1 + 1 / 2 ^ 22) := by
    refine ⟨_, rfl, ?_⟩
    rcases Nat.eq_zero_or_pos X with h0 | hX
    · subst h0
      have e1 : round_float 0 1 = (0, 1) := rfl
      rw [e1]
      simp only [Nat.zero_mul]
      have e2 : ∀ d, round_float 0 d = (0, 1) := fun d => rfl
      rw [e2]
      norm_num
    · obtain ⟨hb3, u3, l3⟩ := float_quotient_bounds hX hP
      generalize (round_float ((round_float X 1).1 * (round_float P 1).2)
        ((round_float X 1).2 * (round_float P 1).1)).1 = a3 at *
      generalize (round_float ((round_float X 1).1 * (round_float P 1).2)
        ((round_float X 1).2 * (round_float P 1).1)).2 = b3 at *
      have hb3n : 0 < b3 := by exact_mod_cast hb3
      obtain ⟨d1, d2⟩ := nat_div_bounds (3600 * a3) hb3n
      have e3 : (((3600 * a3 : Nat) : ℚ)) / b3 = 3600 * ((a3 : ℚ) / b3) := by
        push_cast; ring
      rw [e3] at d1 d2
      have e4 : 3600 * (X : ℚ) / P = 3600 * ((X : ℚ) / P) := by ring
      rw [e4]
      constructor
      · nlinarith
      · nlinarith
  obtain ⟨mag, hm, hlo, hhi⟩ := hmag
  have hmag31 : (mag : ℚ) < 2 ^ 31 := by
    have hXP' : (X : ℚ) / P < 596523 := by rw [div_lt_iff₀ hPq]; exact hXP
    have e4 : 3600 * (X : ℚ) / P = 3600 * ((X : ℚ) / P) := by ring
    rw [e4] at hhi
    have : 3600 * ((X : ℚ) / P) * (1 + 1 / 2 ^ 22) < 2 ^ 31 := by
      have h1 : 3600 * ((X : ℚ) / P) < 3600 * 596523 := by linarith
      have h2 : (0 : ℚ) < 1 + 1 / 2 ^ 22 := by norm_num
      calc 3600 * ((X : ℚ) / P) * (1 + 1 / 2 ^ 22) < 3600 * 596523 * (1 + 1 / 2 ^ 22) :=
            mul_lt_mul_of_pos_right h1 h2
        _ < 2 ^ 31 := by norm_num
    linarith
  have hmag31' : (mag : Int) < 2 ^ 31 := by exact_mod_cast hmag31
  refine ⟨(mag : Int), ?_, by positivity, by simpa only [Int.cast_natCast] using hlo,
    by simpa only [Int.cast_natCast] using hhi⟩
  unfold remaining
  rw [if_neg (by omega)]
  simp only [Int.natAbs_ofNat, hsx, hsp, ne_eq, not_true_eq_false, if_false, hm]
  rw [if_pos ⟨by omega, hmag31'⟩]

theorem atol_le (s : List Char) : atol s ≤ 2 ^ 63 - 1 := by
  unfold atol
  simp only []
  split
  · norm_num
  · split_ifs
    · apply max_le
      · omega
      · norm_num
    · exact min_le_right _ _
    · exact min_le_right _ _

theorem battery_energy_le (attr : Option (List Char)) : battery_energy attr ≤ 2 ^ 63 - 1 := by
  cases attr with
  | none => unfold battery_energy; norm_num
  | some a => exact atol_le a

theorem hr_mn_nonneg {rm : Int} (h : 0 ≤ rm) :
    hr_mn rm = (rm / 3600, rm % 3600 / 60) ∧ 0 ≤ rm % 3600 / 60 ∧ rm % 3600 / 60 < 60 := by
  unfold hr_mn
  have h1 : Int.tdiv rm 3600 = rm / 3600 := Int.tdiv_eq_ediv h (by norm_num)
  have h2 : Int.tmod rm 3600 = rm % 3600 := Int.tmod_eq_emod h (by norm_num)
  have h3 : 0 ≤ rm % 3600 := Int.emod_nonneg _ (by norm_num)
  have h4 : Int.tdiv (rm % 3600) 60 = rm % 3600 / 60 := Int.tdiv_eq_ediv h3 (by norm_num)
  rw [h1, h2, h4]
  refine ⟨rfl, ?_, ?_⟩ <;> omega

/-- Claim C4 fails as stated. Charging with energy-now 9000 above energy-full
4000 (power 10000) shows `00:-30`, a negative minute count. Discharging with
energy 7 and power 10 shows `00:41`: the binary32 quotient gives 2519 seconds,
the exact quotient 2520 (`00:42`). Discharging with energy 45000000 and the
default power 1 has no value: the product does not fit an `int`. -/
theorem battery_update_time_counterexample :
    (0 ≤ battery_energy charging_sample.POWER_SUPPLY_ENERGY_NOW ∧
      0 ≤ battery_energy charging_sample.POWER_SUPPLY_ENERGY_FULL ∧
      0 < battery_pnow charging_sample.POWER_SUPPLY_POWER_NOW ∧
      battery_update (some charging_sample) stale_label =
        some ⟨"BAT0: Char. 25%, 00:-30".toList, []⟩ ∧
      (hr_mn (-1800)).2 = -30) ∧
    (battery_update (some inexact_sample) stale_label =
        some ⟨"BAT0: Disc. 25%, 00:41".toList, ["warning"]⟩ ∧
      remaining 7 10 = some 2519 ∧ (3600 * 7 / 10 : Int) = 2520 ∧ hr_mn 2520 = (0, 42)) ∧
    (0 < battery_pnow no_power_sample.POWER_SUPPLY_POWER_NOW ∧
      battery_update (some no_power_sample) stale_label = none) := by
  decide

/-- Claim C4, amended. Let `x` be `efull - enow` for Charging and `enow` for
Discharging. When `0 ≤ enow`, `0 ≤ x`, `0 < pnow` and `x < 596523 * pnow`, the
remaining-time expression has a value `rm ≥ 0` with
`3600 * x / pnow * (1 - 2⁻²²) - 1 < rm ≤ 3600 * x / pnow * (1 + 2⁻²²)`, and the
label shows `rm / 3600` and `rm % 3600 / 60`, the latter within `0..59`. -/
theorem battery_update_remaining (d : Device) (lbl : Label)
    (hnow : 0 ≤ battery_energy d.POWER_SUPPLY_ENERGY_NOW)
    (hp : 0 < battery_pnow d.POWER_SUPPLY_POWER_NOW) :
    (battery_state d.POWER_SUPPLY_STATUS = BState.BST_CHA →
      battery_energy d.POWER_SUPPLY_ENERGY_NOW ≤ battery_energy d.POWER_SUPPLY_ENERGY_FULL →
      battery_energy d.POWER_SUPPLY_ENERGY_FULL - battery_energy d.POWER_SUPPLY_ENERGY_NOW <
        596523 * battery_pnow d.POWER_SUPPLY_POWER_NOW →
      ∃ (rm : Int) (out : Label),
        remaining (battery_energy d.POWER_SUPPLY_ENERGY_FULL -
          battery_energy d.POWER_SUPPLY_ENERGY_NOW) (battery_pnow d.POWER_SUPPLY_POWER_NOW) =
            some rm ∧
        battery_update (some d) lbl = some out ∧
        out.text = "BAT0: Char. ".toList ++ fmt_d (battery_capacity d.POWER_SUPPLY_CAPACITY) ++
          "%, ".toList ++ fmt_2d (rm / 3600) ++ ":".toList ++ fmt_2d (rm % 3600 / 60) ∧
        0 ≤ rm ∧ 0 ≤ rm % 3600 / 60 ∧ rm % 3600 / 60 < 60 ∧
        (3600 * ((battery_energy d.POWER_SUPPLY_ENERGY_FULL -
            battery_energy d.POWER_SUPPLY_ENERGY_NOW : Int) : ℚ) /
          (battery_pnow d.POWER_SUPPLY_POWER_NOW : ℚ)) * (1 - 1 / 2 ^ 22) - 1 < rm ∧
        (rm : ℚ) ≤ (3600 * ((battery_energy d.POWER_SUPPLY_ENERGY_FULL -
            battery_energy d.POWER_SUPPLY_ENERGY_NOW : Int) : ℚ) /
          (battery_pnow d.POWER_SUPPLY_POWER_NOW : ℚ)) * (1 + 1 / 2 ^ 22)) ∧
    (battery_state d.POWER_SUPPLY_STATUS = BState.BST_DIS →
      battery_energy d.POWER_SUPPLY_ENERGY_NOW <
        596523 * battery_pnow d.POWER_SUPPLY_POWER_NOW →
      ∃ (rm : Int) (out : Label),
        remaining (battery_energy d.POWER_SUPPLY_ENERGY_NOW)
          (battery_pnow d.POWER_SUPPLY_POWER_NOW) = some rm ∧
        battery_update (some d) lbl = some out ∧
        out.text = "BAT0: Disc. ".toList ++ fmt_d (battery_capacity d.POWER_SUPPLY_CAPACITY) ++
          "%, ".toList ++ fmt_2d (rm / 3600) ++ ":".toList ++ fmt_2d (rm % 3600 / 60) ∧
        0 ≤ rm ∧ 0 ≤ rm % 3600 / 60 ∧ rm % 3600 / 60 < 60 ∧
        (3600 * ((battery_energy d.POWER_SUPPLY_ENERGY_NOW : Int) : ℚ) /
          (battery_pnow d.POWER_SUPPLY_POWER_NOW : ℚ)) * (1 - 1 / 2 ^ 22) - 1 < rm ∧
        (rm : ℚ) ≤ (3600 * ((battery_energy d.POWER_SUPPLY_ENERGY_NOW : Int) : ℚ) /
          (battery_pnow d.POWER_SUPPLY_POWER_NOW : ℚ)) * (1 + 1 / 2 ^ 22)) := by
  constructor
  · intro hs hle hr
    obtain ⟨rm, h1, h2, h3, h4⟩ := remaining_spec _ _ (sub_nonneg.mpr hle) hp hr
    obtain ⟨e1, e2, e3⟩ := hr_mn_nonneg h2
    have hfull := battery_energy_le d.POWER_SUPPLY_ENERGY_FULL
    have hsub : sub_long (battery_energy d.POWER_SUPPLY_ENERGY_FULL)
        (battery_energy d.POWER_SUPPLY_ENERGY_NOW) =
        some (battery_energy d.POWER_SUPPLY_ENERGY_FULL -
          battery_energy d.POWER_SUPPLY_ENERGY_NOW) := by
      unfold sub_long
      rw [if_pos (by constructor <;> omega)]
    have hupd : ∃ out, battery_update (some d) lbl = some out ∧
        out.text = "BAT0: Char. ".toList ++ fmt_d (battery_capacity d.POWER_SUPPLY_CAPACITY) ++
          "%, ".toList ++ fmt_2d (rm / 3600) ++ ":".toList ++ fmt_2d (rm % 3600 / 60) := by
      unfold battery_update
      simp only [hs, battery_rm, hsub, Option.bind, h1, Option.map]
      refine ⟨_, rfl, ?_⟩
      simp only [text_set_label, fmt_time, e1, BATTERY_DEVICE, List.append_assoc]
      rfl
    obtain ⟨out, ho, ht⟩ := hupd
    exact ⟨rm, out, h1, ho, ht, h2, e2, e3, h3, h4⟩
  · intro hs hr
    obtain ⟨rm, h1, h2, h3, h4⟩ := remaining_spec _ _ hnow hp hr
    obtain ⟨e1, e2, e3⟩ := hr_mn_nonneg h2
    have hupd : ∃ out, battery_update (some d) lbl = some out ∧
        out.text = "BAT0: Disc. ".toList ++ fmt_d (battery_capacity d.POWER_SUPPLY_CAPACITY) ++
          "%, ".toList ++ fmt_2d (rm / 3600) ++ ":".toList ++ fmt_2d (rm % 3600 / 60) := by
      unfold battery_update
      simp only [hs, battery_rm, h1, Option.map]
      refine ⟨_, rfl, ?_⟩
      simp only [text_set_label, fmt_time, e1, BATTERY_DEVICE, List.append_assoc]
      rfl
    obtain ⟨out, ho, ht⟩ := hupd
    exact ⟨rm, out, h1, ho, ht, h2, e2, e3, h3, h4⟩

/-- Instance of C4 amended: Discharging with energy 5000 and power 10000 shows
`00:30`. -/
theorem battery_update_remaining_witness :
    0 ≤ battery_energy discharging_sample.POWER_SUPPLY_ENERGY_NOW ∧
    0 < battery_pnow discharging_sample.POWER_SUPPLY_POWER_NOW ∧
    battery_state discharging_sample.POWER_SUPPLY_STATUS = BState.BST_DIS ∧
    (battery_update (some discharging_sample) stale_label).map (fun out => out.text) =
      some "BAT0: Disc. 25%, 00:30".toList := by
  refine ⟨by decide, by decide, by decide, ?_⟩
  obtain ⟨rm, out, h1, h2, h3, _⟩ :=
    (battery_update_remaining discharging_sample stale_label (by decide) (by decide)).2
      (by decide) (by decide)
  have hrm : remaining (battery_energy discharging_sample.POWER_SUPPLY_ENERGY_NOW)
      (battery_pnow discharging_sample.POWER_SUPPLY_POWER_NOW) = some 1800 := by decide
  rw [hrm] at h1
  cases h1
  rw [h2, Option.map, h3]
  decide

end Mbar
